import Mathlib

/-!
Verification of the EtherFi anomaly-analysis persistence layer.

The development shallowly embeds the JavaScript/SQL persistence layer:

* `transaction` models the transaction runner of the connection module
  (BEGIN / body / COMMIT with catch-ROLLBACK and finally-release), with the
  outcomes of the begin, commit and rollback statements and of the body made
  explicit, and an event trace recording every connection-level action.
* `retry` models the exponential-backoff retry wrapper of the error handler.
* The relational schema (tables `time_series_data`, `whale_wallets`,
  `anomalies`, `twitter_sentiment`, `validator_metrics`) is embedded as Lean
  structures, one field per column; tables are lists of rows, and the
  `INSERT ... ON CONFLICT ... DO UPDATE` statements become explicit
  keyed-upsert functions on those lists.
* SQL text construction (`getAnomalies`, `getTimeSeriesData`, ...) is
  embedded at the granularity of the template fragments the source
  concatenates, keeping literal text and interpolated caller data apart.

Timestamps are integers (seconds); SQL `INTERVAL 'n days'` becomes
`n * dayLen`.  Numeric columns are `Option Rat` (SQL NULL is `none`).
-/

/-- A JavaScript error value, identified by its message. -/
inductive JsError
  | mk (msg : String)
deriving DecidableEq, Repr

def JsError.msg : JsError → String
  | .mk m => m

/-- Connection-level events performed by the transaction runner. -/
inductive TxEvent
  | acquire
  | stmt (s : String)
  | logError (msg : String)
  | release
deriving DecidableEq, Repr

def TxEvent.isAcquire : TxEvent → Bool
  | .acquire => true
  | _ => false

def TxEvent.isRelease : TxEvent → Bool
  | .release => true
  | _ => false

/-- The try block of `transaction` in the connection module: BEGIN, then the
body, then COMMIT; the first failure aborts the block with that failure.
`beginRes`/`commitRes` are `none` when the statement succeeds, `some e` when
it raises `e`; `body` is the outcome of the caller-supplied callback. -/
def txTry (beginRes commitRes : Option JsError) (body : Except JsError α) :
    Except JsError α × List TxEvent :=
  match beginRes with
  | some e => (.error e, [TxEvent.stmt "BEGIN"])
  | none =>
    match body with
    | .error e => (.error e, [TxEvent.stmt "BEGIN"])
    | .ok a =>
      match commitRes with
      | some e => (.error e, [TxEvent.stmt "BEGIN", TxEvent.stmt "COMMIT"])
      | none => (.ok a, [TxEvent.stmt "BEGIN", TxEvent.stmt "COMMIT"])

/-- The catch block of `transaction`: it awaits ROLLBACK and, only if the
rollback succeeded, logs and rethrows the caught error `e`.  A failure of the
ROLLBACK statement itself escapes the catch block, so the propagated error is
then the rollback failure, not `e`.  Returns the error that leaves the block
together with the events of the block. -/
def txCatch (rollbackRes : Option JsError) (e : JsError) : JsError × List TxEvent :=
  match rollbackRes with
  | some e2 => (e2, [TxEvent.stmt "ROLLBACK"])
  | none => (e, [TxEvent.stmt "ROLLBACK", TxEvent.logError ( JsError.msg e)])

/-- The transaction runner of the connection module: acquire a client, run the
try block, on failure run the catch block, and in all cases release the
client (the finally block). -/
def transaction (beginRes commitRes rollbackRes : Option JsError)
    (body : Except JsError α) : Except JsError α × List TxEvent :=
  let t := txTry beginRes commitRes body
  match t.1 with
  | .ok a => (.ok a, TxEvent.acquire :: (t.2 ++ [TxEvent.release]))
  | .error e =>
    let c := txCatch rollbackRes e
    (.error c.1, TxEvent.acquire :: (t.2 ++ c.2 ++ [TxEvent.release]))

/-- Observable events of the retry wrapper: invoking the operation for a given
attempt number, invoking the optional `onRetry` hook, and sleeping. -/
inductive RetryEvent
  | call (attempt : Nat)
  | onRetry (e : JsError) (attempt : Nat)
  | sleep (ms : Nat)
deriving DecidableEq, Repr

/-- The option object of the `retry` function of the error handler, with its
defaults.  `hasOnRetry` records whether the caller supplied an `onRetry`
hook. -/
structure RetryOptions where
  maxAttempts : Nat := 3
  delayMs : Nat := 1000
  backoffMultiplier : Nat := 2
  hasOnRetry : Bool := false
deriving DecidableEq, Repr

/-- The attempt loop of `retry`.  `op k` is the outcome of the k-th invocation
of the wrapped operation.  `remaining` counts the loop iterations still to
run (so the loop guard `attempt <= maxAttempts` is `remaining > 0`), `delay`
is the current value of the mutable delay variable, and `last` the current
value of `lastError` (`none` models the initial undefined).  When the loop
ends without returning, the JS code throws `lastError`; a thrown undefined is
modelled as `Except.error none`. -/
def retryAux (op : Nat → Except JsError α) (mult : Nat) (hasHook : Bool) :
    Nat → Nat → Nat → Option JsError → Except (Option JsError) α × List RetryEvent
  | 0, _, _, last => (.error last, [])
  | remaining + 1, attempt, delay, _ =>
    match op attempt with
    | .ok a => (.ok a, [RetryEvent.call attempt])
    | .error e =>
      if remaining = 0 then
        (.error (some e), [RetryEvent.call attempt])
      else
        let hook := if hasHook then [RetryEvent.onRetry e attempt] else []
        let rest := retryAux op mult hasHook remaining (attempt + 1) (delay * mult) (some e)
        (rest.1, RetryEvent.call attempt :: (hook ++ RetryEvent.sleep delay :: rest.2))

/-- The `retry` function of the error handler: run `op` with up to
`maxAttempts` attempts and exponential backoff, starting at attempt 1 with
the initial delay. -/
def retry (op : Nat → Except JsError α) (opts : RetryOptions) :
    Except (Option JsError) α × List RetryEvent :=
  retryAux op opts.backoffMultiplier opts.hasOnRetry opts.maxAttempts 1 opts.delayMs none

/-- The events of one full failing attempt that is followed by a retry:
the call, the optional hook invocation, and the sleep. -/
def failSeg (e : JsError) (attempt delay : Nat) (hasHook : Bool) : List RetryEvent :=
  RetryEvent.call attempt ::
    ((if hasHook then [RetryEvent.onRetry e attempt] else []) ++ [RetryEvent.sleep delay])

/-- The expected event trace of the first `k` failing attempts of `retry`:
attempt `i + 1` fails with `e (i + 1)` and is followed by a sleep of
`delayMs * mult ^ i`. -/
def retryFailTrace (e : Nat → JsError) (delayMs mult : Nat) (hasHook : Bool) (k : Nat) :
    List RetryEvent :=
  (List.range k).flatMap (fun i => failSeg (e (i + 1)) (i + 1) (delayMs * mult ^ i) hasHook)

/-- A row of `time_series_data` (schema.sql).  Nullable numeric columns are
`Option`; `timestamp` is the natural key (`UNIQUE (timestamp)`).  The serial
`id` column is omitted: rows are identified by their key. -/
structure TimeSeriesRow where
  timestamp : Int
  tvl_usd : Option Rat
  tvl_eth : Option Rat
  tvl_change_percent : Option Rat
  unique_stakers : Option Int
  new_stakers_24h : Option Int
  deposit_count_24h : Option Int
  withdrawal_count_24h : Option Int
  total_volume_eth_24h : Option Rat
  avg_transaction_size_eth : Option Rat
  withdrawal_queue_size : Option Int
  withdrawal_queue_eth : Option Rat
  avg_withdrawal_wait_time_hours : Option Rat
  eeth_eth_price_ratio : Option Rat
  peg_deviation_percent : Option Rat
  avg_gas_price_gwei : Option Rat
  median_gas_price_gwei : Option Rat
  total_validators : Option Int
  active_validators : Option Int
  data_source : String
  collection_status : String
  error_message : Option String
deriving DecidableEq, Repr

/-- The `ON CONFLICT (timestamp) DO UPDATE SET` clause of
`insertTimeSeriesData`: only `tvl_usd`, `tvl_eth`, `unique_stakers` and
`collection_status` are taken from the excluded (new) row; every other column
keeps the stored value. -/
def tsApplyUpdate (old new : TimeSeriesRow) : TimeSeriesRow :=
  { old with
    tvl_usd := new.tvl_usd
    tvl_eth := new.tvl_eth
    unique_stakers := new.unique_stakers
    collection_status := new.collection_status }

/-- `insertTimeSeriesData` of the query module: INSERT a full row into
`time_series_data`; on a `timestamp` conflict, update only the mutable
columns (`tsApplyUpdate`).  The caller-side defaulting of `timestamp`,
`data_source` and `collection_status` has already produced the row `r`. -/
def insertTimeSeriesData (table : List TimeSeriesRow) (r : TimeSeriesRow) :
    List TimeSeriesRow :=
  if table.any (fun x => x.timestamp == r.timestamp) then
    table.map (fun x => if x.timestamp == r.timestamp then tsApplyUpdate x r else x)
  else
    table ++ [r]

/-- A row of `whale_wallets` (schema.sql); `address` is the natural key
(`UNIQUE (address)`). -/
structure WhaleRow where
  address : String
  first_seen : Int
  last_updated : Int
  current_balance_eeth : Option Rat
  current_balance_usd : Option Rat
  balance_24h_ago : Option Rat
  balance_7d_ago : Option Rat
  balance_30d_ago : Option Rat
  change_24h_eeth : Option Rat
  change_24h_percent : Option Rat
  change_7d_eeth : Option Rat
  change_7d_percent : Option Rat
  total_deposits : Int
  total_withdrawals : Int
  last_transaction_hash : Option String
  last_transaction_time : Option Int
  rank_position : Option Int
  label : Option String
  is_contract : Bool
  is_exchange : Bool
deriving DecidableEq, Repr

/-- The caller-supplied data of `upsertWhaleWallet`, after the JS-side
defaulting of `total_deposits`, `total_withdrawals`, `is_contract` and
`is_exchange`. -/
structure WhaleInput where
  address : String
  current_balance_eeth : Option Rat
  current_balance_usd : Option Rat
  balance_24h_ago : Option Rat
  balance_7d_ago : Option Rat
  balance_30d_ago : Option Rat
  change_24h_eeth : Option Rat
  change_24h_percent : Option Rat
  change_7d_eeth : Option Rat
  change_7d_percent : Option Rat
  total_deposits : Int
  total_withdrawals : Int
  last_transaction_hash : Option String
  last_transaction_time : Option Int
  rank_position : Option Int
  label : Option String
  is_contract : Bool
  is_exchange : Bool
deriving DecidableEq, Repr

/-- The row inserted by `upsertWhaleWallet` when no row with the address
exists: all values from the caller, `last_updated` from the statement-level
`NOW()` and `first_seen` from the column default `NOW()`. -/
def whaleInsertRow (d : WhaleInput) (now : Int) : WhaleRow :=
  { address := d.address
    first_seen := now
    last_updated := now
    current_balance_eeth := d.current_balance_eeth
    current_balance_usd := d.current_balance_usd
    balance_24h_ago := d.balance_24h_ago
    balance_7d_ago := d.balance_7d_ago
    balance_30d_ago := d.balance_30d_ago
    change_24h_eeth := d.change_24h_eeth
    change_24h_percent := d.change_24h_percent
    change_7d_eeth := d.change_7d_eeth
    change_7d_percent := d.change_7d_percent
    total_deposits := d.total_deposits
    total_withdrawals := d.total_withdrawals
    last_transaction_hash := d.last_transaction_hash
    last_transaction_time := d.last_transaction_time
    rank_position := d.rank_position
    label := d.label
    is_contract := d.is_contract
    is_exchange := d.is_exchange }

/-- The `ON CONFLICT (address) DO UPDATE SET` clause of `upsertWhaleWallet`:
refresh the current balances, the 24h change columns, `rank_position` and
`last_updated`; keep every other column. -/
def whaleUpdate (old : WhaleRow) (d : WhaleInput) (now : Int) : WhaleRow :=
  { old with
    current_balance_eeth := d.current_balance_eeth
    current_balance_usd := d.current_balance_usd
    change_24h_eeth := d.change_24h_eeth
    change_24h_percent := d.change_24h_percent
    rank_position := d.rank_position
    last_updated := now }

/-- `upsertWhaleWallet` of the query module: INSERT keyed by `address`, on
conflict update via `whaleUpdate`. -/
def upsertWhaleWallet (table : List WhaleRow) (d : WhaleInput) (now : Int) :
    List WhaleRow :=
  if table.any (fun x => x.address == d.address) then
    table.map (fun x => if x.address == d.address then whaleUpdate x d now else x)
  else
    table ++ [whaleInsertRow d now]

/-- A sequence of `upsertWhaleWallet` calls, each with its own data and
server time, applied in order. -/
def upsertWhaleSeq (table : List WhaleRow) : List (WhaleInput × Int) → List WhaleRow
  | [] => table
  | p :: rest => upsertWhaleSeq (upsertWhaleWallet table p.1 p.2) rest

/-- The number of `whale_wallets` rows stored for an address. -/
def countAddr (table : List WhaleRow) (a : String) : Nat :=
  (table.filter (fun x => x.address == a)).length

/-- A row of `anomalies` (schema.sql).  The serial `id` is kept since the
table has no natural key; opaque JSONB payloads are stored verbatim as
strings. -/
structure AnomalyRow where
  id : Nat
  detected_at : Int
  anomaly_type : String
  severity : String
  confidence : Rat
  title : String
  description : String
  recommendation : Option String
  affected_metrics : List String
  baseline_data : Option String
  recent_data : Option String
  statistical_significance : Option Rat
  historical_comparison : Option String
  similar_past_events : Option String
  claude_prompt : Option String
  claude_response : Option String
  analysis_duration_ms : Option Int
  status : String
  resolved_at : Option Int
  resolution_notes : Option String
  user_acknowledged : Bool
  user_notes : Option String
  view_count : Int
  last_viewed_at : Option Int
deriving DecidableEq, Repr

/-- A row of `twitter_sentiment` (schema.sql); `tweet_id` is the natural key
(`UNIQUE (tweet_id)`). -/
structure SentimentRow where
  timestamp : Int
  tweet_id : String
  tweet_text : String
  author_username : String
  author_followers : Option Int
  sentiment_score : Option Rat
  sentiment_label : Option String
  confidence : Option Rat
  retweet_count : Option Int
  like_count : Option Int
  reply_count : Option Int
  keywords : List String
  is_influential : Bool
deriving DecidableEq, Repr

/-- A row of `validator_metrics` (schema.sql); `timestamp` is the natural key
(`UNIQUE (timestamp)`). -/
structure ValidatorRow where
  timestamp : Int
  total_validators : Option Int
  active_validators : Option Int
  exited_validators : Option Int
  slashed_validators : Option Int
  avg_effectiveness : Option Rat
  total_rewards_eth : Option Rat
  total_penalties_eth : Option Rat
  net_rewards_eth : Option Rat
  estimated_apr : Option Rat
  estimated_apy : Option Rat
  etherfi_apr : Option Rat
  network_avg_apr : Option Rat
  apr_vs_network : Option Rat
deriving DecidableEq, Repr

/-- The five tables of the schema. -/
structure Database where
  time_series : List TimeSeriesRow
  whales : List WhaleRow
  anomalies : List AnomalyRow
  sentiment : List SentimentRow
  validators : List ValidatorRow
deriving DecidableEq, Repr

/-- One day of the timestamp scale (seconds), so `INTERVAL 'n days'` is
`n * dayLen`. -/
def dayLen : Int := 86400

/-- The `cleanup_old_data()` procedure of schema.sql: delete
`time_series_data` and `validator_metrics` rows with `timestamp` older than
90 days, `twitter_sentiment` rows older than 60 days, and `anomalies` rows
with `status = 'resolved'` whose `resolved_at` is older than 90 days (a NULL
`resolved_at` never satisfies the SQL comparison).  A DELETE keeps exactly
the rows that do not match its predicate. -/
def cleanup_old_data (now : Int) (db : Database) : Database :=
  { time_series := db.time_series.filter (fun r => !(decide (r.timestamp < now - 90 * dayLen)))
    whales := db.whales
    anomalies := db.anomalies.filter (fun r =>
      !(r.status == "resolved" &&
        (match r.resolved_at with
         | some t => decide (t < now - 90 * dayLen)
         | none => false)))
    sentiment := db.sentiment.filter (fun r => !(decide (r.timestamp < now - 60 * dayLen)))
    validators := db.validators.filter (fun r => !(decide (r.timestamp < now - 90 * dayLen))) }

/-- The `CASE severity ... END` sort key of the `active_anomalies` view:
CRITICAL 1, HIGH 2, MEDIUM 3, LOW 4.  For any other value the CASE yields
NULL, which PostgreSQL orders after every non-null key under ascending
order; that NULL is encoded as 5. -/
def severityOrd (s : String) : Nat :=
  match s with
  | "CRITICAL" => 1
  | "HIGH" => 2
  | "MEDIUM" => 3
  | "LOW" => 4
  | _ => 5

/-- The ordering of the `active_anomalies` view: severity rank ascending,
then `detected_at` descending. -/
def anomLe (a b : AnomalyRow) : Prop :=
  severityOrd a.severity < severityOrd b.severity ∨
    (severityOrd a.severity = severityOrd b.severity ∧ b.detected_at ≤ a.detected_at)

instance : DecidableRel anomLe := fun a b => by
  unfold anomLe
  infer_instance

instance : IsTotal AnomalyRow anomLe := by
  constructor
  intro a b
  unfold anomLe
  omega

instance : IsTrans AnomalyRow anomLe := by
  constructor
  intro a b c hab hbc
  unfold anomLe at *
  omega

/-- The column list of the `active_anomalies` view. -/
structure ActiveAnomalyRow where
  id : Nat
  detected_at : Int
  anomaly_type : String
  severity : String
  confidence : Rat
  title : String
  description : String
  affected_metrics : List String
  recommendation : Option String
deriving DecidableEq, Repr

/-- The SELECT list of the `active_anomalies` view. -/
def anomProj (a : AnomalyRow) : ActiveAnomalyRow :=
  { id := a.id
    detected_at := a.detected_at
    anomaly_type := a.anomaly_type
    severity := a.severity
    confidence := a.confidence
    title := a.title
    description := a.description
    affected_metrics := a.affected_metrics
    recommendation := a.recommendation }

/-- The `active_anomalies` view of schema.sql: rows with `status = 'active'`,
ordered by the severity CASE key and then by `detected_at DESC` (the view
body; `getActiveAnomalies` of the query module selects it verbatim). -/
def active_anomalies (db : List AnomalyRow) : List ActiveAnomalyRow :=
  (List.insertionSort anomLe (db.filter (fun a => a.status == "active"))).map anomProj

/-- The row mutation of `getAnomalyById` ("record a view"): increment
`view_count` and set `last_viewed_at` to the statement time. -/
def recordView (r : AnomalyRow) (now : Int) : AnomalyRow :=
  { r with view_count := r.view_count + 1, last_viewed_at := some now }

/-- `getAnomalyById` of the query module: `UPDATE anomalies SET view_count =
view_count + 1, last_viewed_at = NOW() WHERE id = $1`, returning the new
table state (`RETURNING *` returns the affected rows and adds no further
mutation). -/
def getAnomalyById (table : List AnomalyRow) (i : Nat) (now : Int) : List AnomalyRow :=
  table.map (fun r => if r.id == i then recordView r now else r)

/-- A bound statement parameter (`values[i]` of the query module). -/
inductive SqlParam
  | pstr (s : String)
  | pint (n : Int)
deriving DecidableEq, Repr

/-- One appended piece of a dynamically built statement: plain text, or a
predicate fragment ending in a parameter placeholder `$idx`. -/
inductive SqlPiece
  | text (s : String)
  | param (fragText : String) (idx : Nat)
deriving DecidableEq, Repr

/-- Render one piece back into SQL text. -/
def renderPiece : SqlPiece → String
  | .text s => s
  | .param p i => p ++ "$" ++ toString i

/-- Render a piece list into the SQL string the source builds by `+=`. -/
def renderSql (l : List SqlPiece) : String :=
  (l.map renderPiece).foldl (fun a b => a ++ b) ""

/-- The filter object of `getAnomalies`.  A missing key is `none`. -/
structure AnomalyFilters where
  status : Option String := none
  severity : Option String := none
  type : Option String := none
  since : Option Int := none
  limit : Option Int := none
deriving DecidableEq, Repr

/-- JS truthiness of an optional string filter value (`if (filters.x)`):
present and not the empty string. -/
def optStrTruthy : Option String → Bool
  | none => false
  | some s => !(s == "")

/-- JS truthiness of an optional numeric filter value: present and nonzero. -/
def optIntTruthy : Option Int → Bool
  | none => false
  | some n => !(n == 0)

/-- The string carried by a truthy optional string value. -/
def optStrVal : Option String → String
  | none => ""
  | some s => s

/-- The integer carried by a truthy optional numeric value. -/
def optIntVal : Option Int → Int
  | none => 0
  | some n => n

/-- Append one predicate fragment and its bound parameter.  The source keeps
`paramCount` in a mutable variable; it always equals `values.length + 1`, so
the placeholder index is taken from the accumulated parameter list. -/
def pushClause (acc : List SqlPiece × List SqlParam) (fragText : String) (v : SqlParam) :
    List SqlPiece × List SqlParam :=
  (acc.1 ++ [SqlPiece.param fragText (acc.2.length + 1)], acc.2 ++ [v])

/-- Append the fragment and parameter only when the filter value is truthy. -/
def condClause (acc : List SqlPiece × List SqlParam) (b : Bool) (fragText : String)
    (v : SqlParam) : List SqlPiece × List SqlParam :=
  if b then pushClause acc fragText v else acc

/-- `getAnomalies` of the query module: start from
`SELECT * FROM anomalies WHERE 1=1`, conjunctively append one parameterized
predicate per truthy recognized filter (status, severity, type, since), then
`ORDER BY detected_at DESC`, then a parameterized `LIMIT` when a truthy
limit is given.  Returns the statement pieces and the bound parameters. -/
def getAnomaliesQuery (f : AnomalyFilters) : List SqlPiece × List SqlParam :=
  let a0 : List SqlPiece × List SqlParam :=
    ([SqlPiece.text "SELECT * FROM anomalies WHERE 1=1"], [])
  let a1 := condClause a0 (optStrTruthy f.status) " AND status = " (SqlParam.pstr (optStrVal f.status))
  let a2 := condClause a1 (optStrTruthy f.severity) " AND severity = " (SqlParam.pstr (optStrVal f.severity))
  let a3 := condClause a2 (optStrTruthy f.type) " AND anomaly_type = " (SqlParam.pstr (optStrVal f.type))
  let a4 := condClause a3 (optIntTruthy f.since) " AND detected_at >= " (SqlParam.pint (optIntVal f.since))
  let a5 := (a4.1 ++ [SqlPiece.text " ORDER BY detected_at DESC"], a4.2)
  condClause a5 (optIntTruthy f.limit) " LIMIT " (SqlParam.pint (optIntVal f.limit))

/-- A JavaScript value interpolated into a template literal. -/
inductive JsValue
  | num (n : Int)
  | str (s : String)
deriving DecidableEq, Repr

/-- JS truthiness of a value: nonzero number or non-empty string. -/
def jsTruthy : JsValue → Bool
  | .num n => !(n == 0)
  | .str s => !(s == "")

/-- A fragment of a template literal: literal text, or an interpolated
caller-supplied value (`${...}`). -/
inductive SqlFrag
  | lit (s : String)
  | interp (v : JsValue)
deriving DecidableEq, Repr

/-- The SQL template of `getTimeSeriesData(hours, limit)`: `hours` is
interpolated into the INTERVAL literal, and, when `limit` is truthy, `limit`
is interpolated after `LIMIT`; no bound parameters are used. -/
def getTimeSeriesDataFrags (hours : JsValue) (limit : Option JsValue) : List SqlFrag :=
  [SqlFrag.lit "SELECT * FROM time_series_data WHERE timestamp >= NOW() - INTERVAL '",
   SqlFrag.interp hours,
   SqlFrag.lit " hours' ORDER BY timestamp DESC "] ++
  (match limit with
   | some v => if jsTruthy v then [SqlFrag.lit "LIMIT ", SqlFrag.interp v] else [SqlFrag.lit ""]
   | none => [SqlFrag.lit ""])

/-- The SQL template of `getSentimentStats(hours)`: `hours` is interpolated
into the INTERVAL literal. -/
def getSentimentStatsFrags (hours : JsValue) : List SqlFrag :=
  [SqlFrag.lit "SELECT AVG(sentiment_score) ... FROM twitter_sentiment WHERE timestamp >= NOW() - INTERVAL '",
   SqlFrag.interp hours,
   SqlFrag.lit " hours'"]

/-- The trailing WHERE clause of the `getBaselineStats(days)` template:
`days` is interpolated into the INTERVAL literal, followed by the fixed
`collection_status` predicate. -/
def getBaselineStatsFrags (days : JsValue) : List SqlFrag :=
  [SqlFrag.lit "... FROM time_series_data WHERE timestamp >= NOW() - INTERVAL '",
   SqlFrag.interp days,
   SqlFrag.lit " days' AND collection_status = 'success'"]

/-- `getTopWhales` of the query module: fixed SQL text with the row limit
passed as the single bound parameter. -/
def getTopWhalesQuery (limit : JsValue) : String × List JsValue :=
  ("SELECT * FROM whale_wallets ORDER BY current_balance_eeth DESC LIMIT $1", [limit])

/-- A value is a positive integer (the validation the specification claims
for embedded row limits). -/
def isPositiveIntValue : JsValue → Bool
  | .num n => decide (0 < n)
  | .str _ => false

/-- Claim C6 as stated, specialized to `getTimeSeriesData`: every limit value
that ends up embedded in the statement has been validated to be a positive
integer. -/
def timeSeriesLimitValidated : Prop :=
  ∀ hours v, SqlFrag.interp v ∈ getTimeSeriesDataFrags hours (some v) →
    isPositiveIntValue v = true

/-- SQL `AVG` over a column: NULL entries are ignored; NULL on an empty
value set. -/
def sqlAvg (xs : List (Option Rat)) : Option Rat :=
  let v := xs.filterMap id
  if v.length = 0 then none else some (v.sum / (v.length : Rat))

/-- SQL `STDDEV` (sample) over a column, represented by its square, the
sample variance, which determines it: NULL entries are ignored; NULL unless
at least two values remain. -/
def sqlVarSamp (xs : List (Option Rat)) : Option Rat :=
  let v := xs.filterMap id
  if v.length ≤ 1 then none
  else
    let m := v.sum / (v.length : Rat)
    some ((v.map (fun x => (x - m) ^ 2)).sum / ((v.length : Rat) - 1))

/-- SQL `MIN` over a non-null integer column. -/
def sqlMinInt (xs : List Int) : Option Int :=
  xs.foldl (fun acc x =>
    match acc with
    | none => some x
    | some m => some (min m x)) none

/-- SQL `MAX` over a non-null integer column. -/
def sqlMaxInt (xs : List Int) : Option Int :=
  xs.foldl (fun acc x =>
    match acc with
    | none => some x
    | some m => some (max m x)) none

/-- The result row of `getBaselineStats`: the standard deviations are
represented by their squares (sample variances), see `sqlVarSamp`. -/
structure BaselineStats where
  avg_tvl_usd : Option Rat
  var_tvl_usd : Option Rat
  avg_stakers : Option Rat
  var_stakers : Option Rat
  avg_queue_size : Option Rat
  var_queue_size : Option Rat
  avg_peg_deviation : Option Rat
  var_peg_deviation : Option Rat
  avg_volume : Option Rat
  var_volume : Option Rat
  period_start : Option Int
  period_end : Option Int
  data_points : Nat
deriving DecidableEq, Repr

/-- The rows `getBaselineStats` aggregates over: the trailing `days` window
intersected with `collection_status = 'success'`. -/
def baselineRows (table : List TimeSeriesRow) (now days : Int) : List TimeSeriesRow :=
  table.filter (fun r =>
    decide (now - days * dayLen ≤ r.timestamp) && (r.collection_status == "success"))

/-- `getBaselineStats` of the query module: averages, standard deviations
(via their squares), window bounds and row count over `baselineRows`. -/
def getBaselineStats (table : List TimeSeriesRow) (now days : Int) : BaselineStats :=
  let rows := baselineRows table now days
  { avg_tvl_usd := sqlAvg (rows.map (fun r => r.tvl_usd))
    var_tvl_usd := sqlVarSamp (rows.map (fun r => r.tvl_usd))
    avg_stakers := sqlAvg (rows.map (fun r => (r.unique_stakers).map (fun n => (n : Rat))))
    var_stakers := sqlVarSamp (rows.map (fun r => (r.unique_stakers).map (fun n => (n : Rat))))
    avg_queue_size := sqlAvg (rows.map (fun r => (r.withdrawal_queue_size).map (fun n => (n : Rat))))
    var_queue_size := sqlVarSamp (rows.map (fun r => (r.withdrawal_queue_size).map (fun n => (n : Rat))))
    avg_peg_deviation := sqlAvg (rows.map (fun r => r.peg_deviation_percent))
    var_peg_deviation := sqlVarSamp (rows.map (fun r => r.peg_deviation_percent))
    avg_volume := sqlAvg (rows.map (fun r => r.total_volume_eth_24h))
    var_volume := sqlVarSamp (rows.map (fun r => r.total_volume_eth_24h))
    period_start := sqlMinInt (rows.map (fun r => r.timestamp))
    period_end := sqlMaxInt (rows.map (fun r => r.timestamp))
    data_points := rows.length }

/-- A concrete `time_series_data` row for instantiating the theorems:
timestamp, collection status, TVL (USD) and staker count given, every other
column at its JS-default or NULL. -/
def mkTsRow (t : Int) (status : String) (tvl : Option Rat) (stakers : Option Int) :
    TimeSeriesRow :=
  { timestamp := t
    tvl_usd := tvl
    tvl_eth := none
    tvl_change_percent := none
    unique_stakers := stakers
    new_stakers_24h := none
    deposit_count_24h := none
    withdrawal_count_24h := none
    total_volume_eth_24h := none
    avg_transaction_size_eth := none
    withdrawal_queue_size := none
    withdrawal_queue_eth := none
    avg_withdrawal_wait_time_hours := none
    eeth_eth_price_ratio := none
    peg_deviation_percent := none
    avg_gas_price_gwei := none
    median_gas_price_gwei := none
    total_validators := none
    active_validators := none
    data_source := "blockchain"
    collection_status := status
    error_message := none }

/-- A concrete `upsertWhaleWallet` input for instantiating the theorems. -/
def mkWhaleInput (a : String) (bal : Option Rat) (rank : Option Int) : WhaleInput :=
  { address := a
    current_balance_eeth := bal
    current_balance_usd := none
    balance_24h_ago := none
    balance_7d_ago := none
    balance_30d_ago := none
    change_24h_eeth := none
    change_24h_percent := none
    change_7d_eeth := none
    change_7d_percent := none
    total_deposits := 0
    total_withdrawals := 0
    last_transaction_hash := none
    last_transaction_time := none
    rank_position := rank
    label := none
    is_contract := false
    is_exchange := false }

/-- A concrete `anomalies` row for instantiating the theorems. -/
def mkAnomaly (i : Nat) (t : Int) (sev status : String) (resolved : Option Int) :
    AnomalyRow :=
  { id := i
    detected_at := t
    anomaly_type := "peg_deviation"
    severity := sev
    confidence := 1
    title := "t"
    description := "d"
    recommendation := none
    affected_metrics := []
    baseline_data := none
    recent_data := none
    statistical_significance := none
    historical_comparison := none
    similar_past_events := none
    claude_prompt := none
    claude_response := none
    analysis_duration_ms := none
    status := status
    resolved_at := resolved
    resolution_notes := none
    user_acknowledged := false
    user_notes := none
    view_count := 0
    last_viewed_at := none }

/-- Claim C10: `getBaselineStats` computes its aggregates only over rows of
the trailing window whose `collection_status` equals `success`; a row whose
status differs (partial, error, test, initial, ...) or which lies outside the
window contributes nothing to any returned aggregate or to `data_points`. -/
theorem getBaselineStats_success_only (table : List TimeSeriesRow) (now days : Int)
    (r : TimeSeriesRow)
    (h : r.collection_status ≠ "success" ∨ r.timestamp < now - days * dayLen) :
    getBaselineStats (r :: table) now days = getBaselineStats table now days := by
  have hcond :
      (decide (now - days * dayLen ≤ r.timestamp) && (r.collection_status == "success")) =
        false := by
    rcases h with h | h
    · simp [h]
    · have : ¬ (now - days * dayLen ≤ r.timestamp) := by omega
      simp [this]
  have hrows : baselineRows (r :: table) now days = baselineRows table now days := by
    simp only [baselineRows, List.filter_cons, hcond]
    simp
  simp only [getBaselineStats, hrows]

theorem getBaselineStats_success_only_witness :
    getBaselineStats [mkTsRow 1000 "partial" (some 999) (some 5),
        mkTsRow 900 "success" (some 10) (some 1)] 1000 30 =
      getBaselineStats [mkTsRow 900 "success" (some 10) (some 1)] 1000 30 :=
  getBaselineStats_success_only _ 1000 30 _ (Or.inl (by decide))

/-- Claim C4: `cleanup_old_data` deletes exactly the `time_series_data` and
`validator_metrics` rows strictly older than 90 days, the
`twitter_sentiment` rows strictly older than 60 days, and the `anomalies`
rows with status resolved whose `resolved_at` is strictly older than 90
days; anomalies in any other status (and resolved ones with no or a younger
`resolved_at`) are retained, and the whale table is untouched. -/
theorem cleanup_old_data_spec (now : Int) (db : Database) (tr : TimeSeriesRow)
    (sr : SentimentRow) (ar : AnomalyRow) (vr : ValidatorRow) :
    (tr ∈ (cleanup_old_data now db).time_series ↔
      tr ∈ db.time_series ∧ ¬ tr.timestamp < now - 90 * dayLen) ∧
    (sr ∈ (cleanup_old_data now db).sentiment ↔
      sr ∈ db.sentiment ∧ ¬ sr.timestamp < now - 60 * dayLen) ∧
    (vr ∈ (cleanup_old_data now db).validators ↔
      vr ∈ db.validators ∧ ¬ vr.timestamp < now - 90 * dayLen) ∧
    (ar ∈ (cleanup_old_data now db).anomalies ↔
      ar ∈ db.anomalies ∧
        ¬ (ar.status = "resolved" ∧ ∃ t, ar.resolved_at = some t ∧ t < now - 90 * dayLen)) ∧
    (cleanup_old_data now db).whales = db.whales := by
  refine ⟨?_, ?_, ?_, ?_, rfl⟩
  · simp [cleanup_old_data, List.mem_filter]
  · simp [cleanup_old_data, List.mem_filter]
  · simp [cleanup_old_data, List.mem_filter]
  · cases har : ar.resolved_at with
    | none => simp [cleanup_old_data, List.mem_filter, har]
    | some t =>
      simp only [cleanup_old_data, List.mem_filter, har]
      constructor
      · rintro ⟨hmem, hb⟩
        refine ⟨hmem, ?_⟩
        rintro ⟨hres, t2, ht2, hlt⟩
        obtain rfl : t2 = t := by injection ht2.symm
        simp [hres, hlt] at hb
      · rintro ⟨hmem, hb⟩
        refine ⟨hmem, ?_⟩
        by_cases hres : ar.status = "resolved"
        · have : ¬ t < now - 90 * dayLen := fun hlt => hb ⟨hres, t, rfl, hlt⟩
          simp [hres, this]
        · simp [hres]

/-- Claim C9: `getAnomalyById` is a pure view-recording mutation.  Row by
row, the updated table agrees with the old one on every column except that
the rows whose `id` matches get `view_count` incremented by exactly one and
`last_viewed_at` set to the statement time; in particular `status`,
`resolved_at`, `severity` and all content fields are unchanged, so no status
transition ever results. -/
theorem getAnomalyById_spec (table : List AnomalyRow) (i : Nat) (now : Int) :
    List.Forall₂ (fun r r2 =>
      r2.id = r.id ∧ r2.detected_at = r.detected_at ∧ r2.anomaly_type = r.anomaly_type ∧
      r2.severity = r.severity ∧ r2.confidence = r.confidence ∧ r2.title = r.title ∧
      r2.description = r.description ∧ r2.recommendation = r.recommendation ∧
      r2.affected_metrics = r.affected_metrics ∧ r2.baseline_data = r.baseline_data ∧
      r2.recent_data = r.recent_data ∧
      r2.statistical_significance = r.statistical_significance ∧
      r2.historical_comparison = r.historical_comparison ∧
      r2.similar_past_events = r.similar_past_events ∧
      r2.claude_prompt = r.claude_prompt ∧ r2.claude_response = r.claude_response ∧
      r2.analysis_duration_ms = r.analysis_duration_ms ∧
      r2.status = r.status ∧ r2.resolved_at = r.resolved_at ∧
      r2.resolution_notes = r.resolution_notes ∧
      r2.user_acknowledged = r.user_acknowledged ∧ r2.user_notes = r.user_notes ∧
      (r.id = i → r2.view_count = r.view_count + 1 ∧ r2.last_viewed_at = some now) ∧
      (r.id ≠ i → r2.view_count = r.view_count ∧ r2.last_viewed_at = r.last_viewed_at))
      table (getAnomalyById table i now) := by
  induction table with
  | nil => simp [getAnomalyById]
  | cons r rest ih =>
    simp only [getAnomalyById, List.map_cons]
    refine List.Forall₂.cons ?_ ih
    by_cases h : r.id = i
    · simp [h, recordView]
    · simp [h, recordView]

theorem getAnomalyById_spec_witness :
    List.Forall₂ (fun r r2 =>
      r2.id = r.id ∧ r2.detected_at = r.detected_at ∧ r2.anomaly_type = r.anomaly_type ∧
      r2.severity = r.severity ∧ r2.confidence = r.confidence ∧ r2.title = r.title ∧
      r2.description = r.description ∧ r2.recommendation = r.recommendation ∧
      r2.affected_metrics = r.affected_metrics ∧ r2.baseline_data = r.baseline_data ∧
      r2.recent_data = r.recent_data ∧
      r2.statistical_significance = r.statistical_significance ∧
      r2.historical_comparison = r.historical_comparison ∧
      r2.similar_past_events = r.similar_past_events ∧
      r2.claude_prompt = r.claude_prompt ∧ r2.claude_response = r.claude_response ∧
      r2.analysis_duration_ms = r.analysis_duration_ms ∧
      r2.status = r.status ∧ r2.resolved_at = r.resolved_at ∧
      r2.resolution_notes = r.resolution_notes ∧
      r2.user_acknowledged = r.user_acknowledged ∧ r2.user_notes = r.user_notes ∧
      (r.id = 1 → r2.view_count = r.view_count + 1 ∧ r2.last_viewed_at = some 500) ∧
      (r.id ≠ 1 → r2.view_count = r.view_count ∧ r2.last_viewed_at = r.last_viewed_at))
      [mkAnomaly 1 100 "HIGH" "active" none, mkAnomaly 2 200 "LOW" "resolved" (some 300)]
      (getAnomalyById
        [mkAnomaly 1 100 "HIGH" "active" none, mkAnomaly 2 200 "LOW" "resolved" (some 300)]
        1 500) :=
  getAnomalyById_spec
    [mkAnomaly 1 100 "HIGH" "active" none, mkAnomaly 2 200 "LOW" "resolved" (some 300)] 1 500

/-- Claim C1 counterexample: for a body failure followed by a failing
ROLLBACK statement, the transaction runner propagates the rollback failure,
not the original body failure — so the clause "a failure of the rollback
itself never replaces the original failure" is false of the code. -/
theorem transaction_claim_counterexample :
    (transaction none none (some (JsError.mk "rollback failure"))
          (Except.error (JsError.mk "body failure") : Except JsError Nat)).1 =
        Except.error (JsError.mk "rollback failure") ∧
      JsError.mk "rollback failure" ≠ JsError.mk "body failure" := by
  constructor
  · rfl
  · decide

/-- Claim C1 (amended): the transaction runner acquires exactly one
connection (first event) and releases it on every exit path (last event);
it issues BEGIN, runs the body, commits on normal return; on any failure of
the body or of the commit it issues ROLLBACK and, when the rollback
succeeds, propagates the original failure — but when the rollback itself
fails, the rollback failure propagates in place of the original one. -/
theorem transaction_spec (beginRes commitRes rollbackRes : Option JsError)
    (body : Except JsError α) :
    ((transaction beginRes commitRes rollbackRes body).2.countP TxEvent.isAcquire = 1 ∧
      (transaction beginRes commitRes rollbackRes body).2.countP TxEvent.isRelease = 1 ∧
      (transaction beginRes commitRes rollbackRes body).2.head? = some TxEvent.acquire ∧
      (transaction beginRes commitRes rollbackRes body).2.getLast? = some TxEvent.release ∧
      TxEvent.stmt "BEGIN" ∈ (transaction beginRes commitRes rollbackRes body).2) ∧
    (∀ a, beginRes = none → body = Except.ok a → commitRes = none →
      transaction beginRes commitRes rollbackRes body =
        (Except.ok a,
          [TxEvent.acquire, TxEvent.stmt "BEGIN", TxEvent.stmt "COMMIT",
            TxEvent.release])) ∧
    (∀ e, beginRes = none → body = Except.error e →
      TxEvent.stmt "ROLLBACK" ∈ (transaction beginRes commitRes rollbackRes body).2 ∧
      (transaction beginRes commitRes rollbackRes body).1 =
        Except.error (match rollbackRes with | none => e | some e2 => e2)) ∧
    (∀ a e, beginRes = none → body = Except.ok a → commitRes = some e →
      TxEvent.stmt "ROLLBACK" ∈ (transaction beginRes commitRes rollbackRes body).2 ∧
      (transaction beginRes commitRes rollbackRes body).1 =
        Except.error (match rollbackRes with | none => e | some e2 => e2)) := by
  rcases beginRes with _ | eb <;>
    rcases body with e0 | a0 <;>
    rcases commitRes with _ | ec <;>
    rcases rollbackRes with _ | er <;>
    simp [transaction, txTry, txCatch, TxEvent.isAcquire, TxEvent.isRelease,
      List.countP_cons, List.countP_nil]

theorem transaction_spec_witness :
    transaction none none none (Except.ok (5 : Nat)) =
      (Except.ok 5,
        [TxEvent.acquire, TxEvent.stmt "BEGIN", TxEvent.stmt "COMMIT", TxEvent.release]) :=
  (transaction_spec none none none (Except.ok 5)).2.1 5 rfl rfl rfl

/-- Claim C6 counterexample: `getTimeSeriesData` performs no validation of
the row limit before embedding it — a limit of -1 (not a positive integer)
is interpolated into the statement text. -/
theorem getTimeSeriesData_limit_unvalidated : ¬ timeSeriesLimitValidated := by
  intro h
  have hm : SqlFrag.interp (JsValue.num (-1)) ∈
      getTimeSeriesDataFrags (JsValue.num 24) (some (JsValue.num (-1))) := by decide
  have := h (JsValue.num 24) (JsValue.num (-1)) hm
  simp [isPositiveIntValue] at this

/-- Claim C6 (amended): in `getTimeSeriesData`, `getSentimentStats` and
`getBaselineStats` the caller-supplied interval value, and any truthy row
limit, are embedded directly into the SQL text without validation — in
particular a non-positive limit is embedded verbatim — whereas `getTopWhales`
keeps its SQL text fixed and passes its limit as the single bound
parameter. -/
theorem sql_interpolation_spec :
    (∀ h v, jsTruthy v = true →
      SqlFrag.interp v ∈ getTimeSeriesDataFrags h (some v)) ∧
    (∀ h l, SqlFrag.interp h ∈ getTimeSeriesDataFrags h l) ∧
    (∀ h, SqlFrag.interp h ∈ getSentimentStatsFrags h) ∧
    (∀ d, SqlFrag.interp d ∈ getBaselineStatsFrags d) ∧
    (∀ v, (getTopWhalesQuery v).1 =
        "SELECT * FROM whale_wallets ORDER BY current_balance_eeth DESC LIMIT $1" ∧
      (getTopWhalesQuery v).2 = [v]) ∧
    (∃ v, isPositiveIntValue v = false ∧ jsTruthy v = true) := by
  refine ⟨?_, ?_, ?_, ?_, ?_, ⟨JsValue.num (-1), by decide, by decide⟩⟩
  · intro h v hv
    simp [getTimeSeriesDataFrags, hv]
  · intro h l
    rcases l with _ | v
    · simp [getTimeSeriesDataFrags]
    · by_cases hv : jsTruthy v = true <;> simp [getTimeSeriesDataFrags, hv]
  · intro h
    simp [getSentimentStatsFrags]
  · intro d
    simp [getBaselineStatsFrags]
  · intro v
    exact ⟨rfl, rfl⟩

theorem sql_interpolation_spec_witness :
    SqlFrag.interp (JsValue.num (-1)) ∈
      getTimeSeriesDataFrags (JsValue.num 24) (some (JsValue.num (-1))) :=
  sql_interpolation_spec.1 (JsValue.num 24) (JsValue.num (-1)) (by decide)

/-- Claim C5: `active_anomalies` returns exactly the anomalies with status
active (as a permutation of their projection), ordered by the severity rank
— CRITICAL before HIGH before MEDIUM before LOW — and, within equal
severity, by `detected_at` descending. -/
theorem active_anomalies_spec (db : List AnomalyRow) :
    (active_anomalies db).Perm
        ((db.filter (fun a => a.status == "active")).map anomProj) ∧
    List.Pairwise (fun x y : ActiveAnomalyRow =>
        severityOrd x.severity < severityOrd y.severity ∨
          (severityOrd x.severity = severityOrd y.severity ∧
            y.detected_at ≤ x.detected_at))
      (active_anomalies db) ∧
    severityOrd "CRITICAL" < severityOrd "HIGH" ∧
    severityOrd "HIGH" < severityOrd "MEDIUM" ∧
    severityOrd "MEDIUM" < severityOrd "LOW" := by
  refine ⟨?_, ?_, by decide, by decide, by decide⟩
  · exact (List.perm_insertionSort anomLe _).map anomProj
  · have hs := List.sorted_insertionSort anomLe (db.filter (fun a => a.status == "active"))
    rw [show active_anomalies db =
        (List.insertionSort anomLe (db.filter (fun a => a.status == "active"))).map anomProj
      from rfl]
    rw [List.pairwise_map]
    exact hs

/-- Claim C7: for every filter object, `getAnomalies` builds the conjunction
of exactly one parameterized predicate per truthy recognized filter (status,
severity, type, since), numbered consecutively from $1, contributing exactly
one bound parameter each and nothing for an absent filter; the statement
always orders by `detected_at DESC`, and a parameterized LIMIT is appended
exactly when a truthy limit is given. -/
theorem getAnomalies_spec (f : AnomalyFilters) :
    getAnomaliesQuery f =
      ([SqlPiece.text "SELECT * FROM anomalies WHERE 1=1"]
        ++ (if optStrTruthy f.status then [SqlPiece.param " AND status = " 1] else [])
        ++ (if optStrTruthy f.severity then
              [SqlPiece.param " AND severity = " (1 + (optStrTruthy f.status).toNat)]
            else [])
        ++ (if optStrTruthy f.type then
              [SqlPiece.param " AND anomaly_type = "
                (1 + (optStrTruthy f.status).toNat + (optStrTruthy f.severity).toNat)]
            else [])
        ++ (if optIntTruthy f.since then
              [SqlPiece.param " AND detected_at >= "
                (1 + (optStrTruthy f.status).toNat + (optStrTruthy f.severity).toNat +
                  (optStrTruthy f.type).toNat)]
            else [])
        ++ [SqlPiece.text " ORDER BY detected_at DESC"]
        ++ (if optIntTruthy f.limit then
              [SqlPiece.param " LIMIT "
                (1 + (optStrTruthy f.status).toNat + (optStrTruthy f.severity).toNat +
                  (optStrTruthy f.type).toNat + (optIntTruthy f.since).toNat)]
            else []),
       (if optStrTruthy f.status then [SqlParam.pstr (optStrVal f.status)] else [])
        ++ (if optStrTruthy f.severity then [SqlParam.pstr (optStrVal f.severity)] else [])
        ++ (if optStrTruthy f.type then [SqlParam.pstr (optStrVal f.type)] else [])
        ++ (if optIntTruthy f.since then [SqlParam.pint (optIntVal f.since)] else [])
        ++ (if optIntTruthy f.limit then [SqlParam.pint (optIntVal f.limit)] else [])) := by
  cases h1 : optStrTruthy f.status <;> cases h2 : optStrTruthy f.severity <;>
    cases h3 : optStrTruthy f.type <;> cases h4 : optIntTruthy f.since <;>
    cases h5 : optIntTruthy f.limit <;>
    simp [getAnomaliesQuery, condClause, pushClause, h1, h2, h3, h4, h5]

/-- Claim C2: inserting two `time_series_data` rows with the same timestamp
(into a table not yet containing that timestamp) leaves exactly one row for
it; that row carries the TVL, staker and status columns of the second insert
and every other column of the first insert. -/
theorem insertTimeSeriesData_upsert (table : List TimeSeriesRow) (r1 r2 : TimeSeriesRow)
    (hts : r1.timestamp = r2.timestamp)
    (habs : ∀ r ∈ table, r.timestamp ≠ r1.timestamp) :
    ((insertTimeSeriesData (insertTimeSeriesData table r1) r2).filter
        (fun r => r.timestamp == r1.timestamp)).length = 1 ∧
    ∀ row ∈ (insertTimeSeriesData (insertTimeSeriesData table r1) r2).filter
        (fun r => r.timestamp == r1.timestamp),
      row.tvl_usd = r2.tvl_usd ∧ row.tvl_eth = r2.tvl_eth ∧
      row.unique_stakers = r2.unique_stakers ∧
      row.collection_status = r2.collection_status ∧
      row.timestamp = r1.timestamp ∧
      row.tvl_change_percent = r1.tvl_change_percent ∧
      row.new_stakers_24h = r1.new_stakers_24h ∧
      row.deposit_count_24h = r1.deposit_count_24h ∧
      row.withdrawal_count_24h = r1.withdrawal_count_24h ∧
      row.total_volume_eth_24h = r1.total_volume_eth_24h ∧
      row.avg_transaction_size_eth = r1.avg_transaction_size_eth ∧
      row.withdrawal_queue_size = r1.withdrawal_queue_size ∧
      row.withdrawal_queue_eth = r1.withdrawal_queue_eth ∧
      row.avg_withdrawal_wait_time_hours = r1.avg_withdrawal_wait_time_hours ∧
      TimeSeriesRow.eeth_eth_price_ratio row = TimeSeriesRow.eeth_eth_price_ratio r1 ∧
      row.peg_deviation_percent = r1.peg_deviation_percent ∧
      row.avg_gas_price_gwei = r1.avg_gas_price_gwei ∧
      row.median_gas_price_gwei = r1.median_gas_price_gwei ∧
      row.total_validators = r1.total_validators ∧
      row.active_validators = r1.active_validators ∧
      row.data_source = r1.data_source ∧
      row.error_message = r1.error_message := by
  have hany1 : table.any (fun x => x.timestamp == r1.timestamp) = false := by
    rw [List.any_eq_false]
    intro x hx
    simpa using habs x hx
  have e1 : insertTimeSeriesData table r1 = table ++ [r1] := by
    simp [insertTimeSeriesData, hany1]
  have hany2 : (table ++ [r1]).any (fun x => x.timestamp == r2.timestamp) = true := by
    rw [List.any_eq_true]
    exact ⟨r1, by simp, by simp [hts]⟩
  have e2 : insertTimeSeriesData (table ++ [r1]) r2 = table ++ [tsApplyUpdate r1 r2] := by
    rw [insertTimeSeriesData, if_pos hany2, List.map_append]
    congr 1
    · conv_rhs => rw [← List.map_id table]
      apply List.map_congr_left
      intro x hx
      have : x.timestamp ≠ r2.timestamp := by rw [← hts]; exact habs x hx
      simp [this]
    · simp [hts]
  have e3 : (table ++ [tsApplyUpdate r1 r2]).filter (fun r => r.timestamp == r1.timestamp) =
      [tsApplyUpdate r1 r2] := by
    rw [List.filter_append]
    have hnil : table.filter (fun r => r.timestamp == r1.timestamp) = [] := by
      rw [List.filter_eq_nil_iff]
      intro a ha
      simpa using habs a ha
    rw [hnil]
    simp [tsApplyUpdate]
  rw [e1, e2, e3]
  refine ⟨rfl, ?_⟩
  intro row hrow
  have : row = tsApplyUpdate r1 r2 := by simpa using hrow
  subst this
  simp [tsApplyUpdate]

theorem insertTimeSeriesData_upsert_witness :
    ((insertTimeSeriesData
          (insertTimeSeriesData [] (mkTsRow 100 "success" (some 10) (some 1)))
          (mkTsRow 100 "partial" (some 20) (some 2))).filter
        (fun r => r.timestamp == (mkTsRow 100 "success" (some 10) (some 1)).timestamp)).length
      = 1 :=
  (insertTimeSeriesData_upsert [] (mkTsRow 100 "success" (some 10) (some 1))
    (mkTsRow 100 "partial" (some 20) (some 2)) rfl (by simp)).1

/-- One `upsertWhaleWallet` call on a table holding at most one row for the
address: afterwards the table holds exactly one row for it, carrying the
callers balance and 24h-change values, the callers `rank_position`, and the
statement time as `last_updated`. -/
theorem upsertWhaleWallet_step (table : List WhaleRow) (d : WhaleInput) (now : Int)
    (h : countAddr table d.address ≤ 1) :
    countAddr (upsertWhaleWallet table d now) d.address = 1 ∧
    ∀ r ∈ (upsertWhaleWallet table d now).filter (fun x => x.address == d.address),
      r.current_balance_eeth = d.current_balance_eeth ∧
      r.current_balance_usd = d.current_balance_usd ∧
      r.change_24h_eeth = d.change_24h_eeth ∧
      r.change_24h_percent = d.change_24h_percent ∧
      r.rank_position = d.rank_position ∧
      r.last_updated = now := by
  by_cases hany : table.any (fun x => x.address == d.address) = true
  · have e1 : upsertWhaleWallet table d now =
        table.map (fun x => if x.address == d.address then whaleUpdate x d now else x) := by
      simp [upsertWhaleWallet, hany]
    have hpt : ∀ x : WhaleRow,
        ((fun y : WhaleRow => y.address == d.address)
            ((fun x => if x.address == d.address then whaleUpdate x d now else x) x)) =
          (x.address == d.address) := by
      intro x
      by_cases hx : x.address = d.address
      · simp [hx, whaleUpdate]
      · simp [hx]
    have e2 : (upsertWhaleWallet table d now).filter (fun x => x.address == d.address) =
        (table.filter (fun x => x.address == d.address)).map
          (fun x => if x.address == d.address then whaleUpdate x d now else x) := by
      rw [e1, List.filter_map]
      congr 1
      apply List.filter_congr
      intro x _
      exact hpt x
    have hpos : 0 < countAddr table d.address := by
      rw [List.any_eq_true] at hany
      obtain ⟨x, hx, hpx⟩ := hany
      have : x ∈ table.filter (fun y => y.address == d.address) :=
        List.mem_filter.mpr ⟨hx, hpx⟩
      unfold countAddr
      exact List.length_pos.mpr (fun hnil => by simp [hnil] at this)
    have hcnt : countAddr table d.address = 1 := by omega
    constructor
    · unfold countAddr
      rw [e2, List.length_map]
      exact hcnt
    · intro r hr
      rw [e2] at hr
      obtain ⟨x, hx, rfl⟩ := List.mem_map.mp hr
      have hpx := (List.mem_filter.mp hx).2
      simp only [hpx, if_true]
      simp [whaleUpdate]
  · have e1 : upsertWhaleWallet table d now = table ++ [whaleInsertRow d now] := by
      simp [upsertWhaleWallet]
      intro x hx hax
      exact absurd (List.any_eq_true.mpr ⟨x, hx, by simp [hax]⟩) hany
    have hnil : table.filter (fun x => x.address == d.address) = [] := by
      rw [List.filter_eq_nil_iff]
      intro x hx hpx
      exact hany (List.any_eq_true.mpr ⟨x, hx, hpx⟩)
    have e2 : (upsertWhaleWallet table d now).filter (fun x => x.address == d.address) =
        [whaleInsertRow d now] := by
      rw [e1, List.filter_append, hnil]
      simp [whaleInsertRow]
    constructor
    · unfold countAddr
      rw [e2]
      rfl
    · intro r hr
      rw [e2] at hr
      have : r = whaleInsertRow d now := by simpa using hr
      subst this
      simp [whaleInsertRow]

theorem upsertWhaleSeq_append (table : List WhaleRow) (l1 l2 : List (WhaleInput × Int)) :
    upsertWhaleSeq table (l1 ++ l2) = upsertWhaleSeq (upsertWhaleSeq table l1) l2 := by
  induction l1 generalizing table with
  | nil => simp [upsertWhaleSeq]
  | cons p rest ih => simp [upsertWhaleSeq, ih]

theorem upsertWhaleSeq_count (a : String) (seq : List (WhaleInput × Int)) :
    ∀ table : List WhaleRow, countAddr table a ≤ 1 →
      (∀ p ∈ seq, (p.1).address = a) →
      countAddr (upsertWhaleSeq table seq) a ≤ 1 := by
  induction seq with
  | nil =>
    intro table h _
    simpa [upsertWhaleSeq] using h
  | cons p rest ih =>
    intro table h haddr
    have hpa : (p.1).address = a := haddr p (by simp)
    have hstep := (upsertWhaleWallet_step table p.1 p.2 (by rw [hpa]; exact h)).1
    rw [hpa] at hstep
    exact ih (upsertWhaleWallet table p.1 p.2) (le_of_eq hstep)
      (fun q hq => haddr q (by simp [hq]))

/-- Claim C8: any sequence of `upsertWhaleWallet` calls for one address,
applied to a table holding at most one row for it, leaves exactly one
`whale_wallets` row for that address, and that row carries the current
balance columns, the 24h change columns, the `rank_position` and the
`last_updated` time of the most recent upsert. -/
theorem upsertWhaleWallet_spec (table : List WhaleRow) (a : String)
    (seq : List (WhaleInput × Int)) (d : WhaleInput) (now : Int)
    (huniq : countAddr table a ≤ 1)
    (hseq : ∀ p ∈ seq, (p.1).address = a) (hd : d.address = a) :
    countAddr (upsertWhaleSeq table (seq ++ [(d, now)])) a = 1 ∧
    ∀ r ∈ (upsertWhaleSeq table (seq ++ [(d, now)])).filter (fun x => x.address == a),
      r.current_balance_eeth = d.current_balance_eeth ∧
      r.current_balance_usd = d.current_balance_usd ∧
      r.change_24h_eeth = d.change_24h_eeth ∧
      r.change_24h_percent = d.change_24h_percent ∧
      r.rank_position = d.rank_position ∧
      r.last_updated = now := by
  rw [upsertWhaleSeq_append]
  have hmid : countAddr (upsertWhaleSeq table seq) a ≤ 1 :=
    upsertWhaleSeq_count a seq table huniq hseq
  have hstep := upsertWhaleWallet_step (upsertWhaleSeq table seq) d now
    (by rw [hd]; exact hmid)
  rw [hd] at hstep
  have hone : upsertWhaleSeq (upsertWhaleSeq table seq) [(d, now)] =
      upsertWhaleWallet (upsertWhaleSeq table seq) d now := by
    simp [upsertWhaleSeq]
  rw [hone]
  exact hstep

theorem upsertWhaleWallet_spec_witness :
    countAddr
      (upsertWhaleSeq []
        ([(mkWhaleInput "0xabc" (some 7) (some 3), 100)] ++
          [(mkWhaleInput "0xabc" (some 9) (some 1), 200)])) "0xabc" = 1 :=
  (upsertWhaleWallet_spec [] "0xabc" [(mkWhaleInput "0xabc" (some 7) (some 3), 100)]
    (mkWhaleInput "0xabc" (some 9) (some 1)) 200 (by simp [countAddr])
    (by intro p hp; simp at hp; rw [hp]; rfl) rfl).1

theorem retryAux_ok (op : Nat → Except JsError α) (mult : Nat) (hook : Bool)
    (e : Nat → JsError) (v : α) :
    ∀ (m remaining a d : Nat) (last : Option JsError), m < remaining →
      (∀ j, j < m → op (a + j) = Except.error (e (a + j))) →
      op (a + m) = Except.ok v →
      retryAux op mult hook remaining a d last =
        (Except.ok v,
          (List.range m).flatMap
              (fun i => failSeg (e (a + i)) (a + i) (d * mult ^ i) hook) ++
            [RetryEvent.call (a + m)]) := by
  intro m
  induction m with
  | zero =>
    intro remaining a d last hlt hfail hok
    obtain ⟨r, rfl⟩ : ∃ r, remaining = r + 1 := ⟨remaining - 1, by omega⟩
    have hok1 : op a = Except.ok v := by simpa using hok
    simp [retryAux, hok1]
  | succ m ih =>
    intro remaining a d last hlt hfail hok
    obtain ⟨r, rfl⟩ : ∃ r, remaining = r + 1 := ⟨remaining - 1, by omega⟩
    have hr : ¬ r = 0 := by omega
    have h0 : op a = Except.error (e a) := by simpa using hfail 0 (by omega)
    have hrec := ih r (a + 1) (d * mult) (some (e a)) (by omega)
      (fun j hj => by
        have := hfail (j + 1) (by omega)
        have harith : a + (j + 1) = a + 1 + j := by omega
        rwa [harith] at this)
      (by
        have harith : a + (m + 1) = a + 1 + m := by omega
        rwa [harith] at hok)
    simp only [retryAux, h0, if_neg hr, hrec]
    have hfun : (fun i => failSeg (e (a + 1 + i)) (a + 1 + i) (d * mult * mult ^ i) hook) =
        (fun i => failSeg (e (a + (i + 1))) (a + (i + 1)) (d * mult ^ (i + 1)) hook) := by
      funext i
      have h1 : a + 1 + i = a + (i + 1) := by omega
      have h2 : d * mult * mult ^ i = d * mult ^ (i + 1) := by ring
      rw [h1, h2]
    refine congrArg (Prod.mk (Except.ok v)) ?_
    rw [List.range_succ_eq_map, List.flatMap_cons, List.flatMap_map]
    simp only [Nat.succ_eq_add_one, ← hfun, Nat.add_zero, pow_zero, mul_one]
    have h3 : a + (m + 1) = a + 1 + m := by omega
    rw [h3]
    simp [failSeg, List.append_assoc]

theorem retryAux_cons (op : Nat → Except JsError α) (mult : Nat) (hook : Bool)
    (remaining a d : Nat) (last : Option JsError) (e0 : JsError)
    (h0 : op a = Except.error e0) (hrem : remaining ≠ 0) :
    retryAux op mult hook (remaining + 1) a d last =
      ((retryAux op mult hook remaining (a + 1) (d * mult) (some e0)).1,
        RetryEvent.call a ::
          ((if hook then [RetryEvent.onRetry e0 a] else []) ++
            RetryEvent.sleep d ::
              (retryAux op mult hook remaining (a + 1) (d * mult) (some e0)).2)) := by
  simp only [retryAux, h0]
  rw [if_neg hrem]

theorem retryAux_exhaust (op : Nat → Except JsError α) (mult : Nat) (hook : Bool)
    (e : Nat → JsError) :
    ∀ (m a d : Nat) (last : Option JsError),
      (∀ j, j ≤ m → op (a + j) = Except.error (e (a + j))) →
      retryAux op mult hook (m + 1) a d last =
        (Except.error (some (e (a + m))),
          (List.range m).flatMap
              (fun i => failSeg (e (a + i)) (a + i) (d * mult ^ i) hook) ++
            [RetryEvent.call (a + m)]) := by
  intro m
  induction m with
  | zero =>
    intro a d last hfail
    have h0 : op a = Except.error (e a) := by simpa using hfail 0 (by omega)
    simp [retryAux, h0]
  | succ m ih =>
    intro a d last hfail
    have h0 : op a = Except.error (e a) := by simpa using hfail 0 (by omega)
    have hrec := ih (a + 1) (d * mult) (some (e a))
      (fun j hj => by
        have := hfail (j + 1) (by omega)
        have harith : a + (j + 1) = a + 1 + j := by omega
        rwa [harith] at this)
    have hfun : (fun i => failSeg (e (a + 1 + i)) (a + 1 + i) (d * mult * mult ^ i) hook) =
        (fun i => failSeg (e (a + (i + 1))) (a + (i + 1)) (d * mult ^ (i + 1)) hook) := by
      funext i
      have h1 : a + 1 + i = a + (i + 1) := by omega
      have h2 : d * mult * mult ^ i = d * mult ^ (i + 1) := by ring
      rw [h1, h2]
    rw [retryAux_cons op mult hook (m + 1) a d last (e a) h0 (by omega), hrec]
    have h3 : a + (m + 1) = a + 1 + m := by omega
    rw [h3]
    refine congrArg (Prod.mk (Except.error (some (e (a + 1 + m))))) ?_
    rw [List.range_succ_eq_map, List.flatMap_cons, List.flatMap_map]
    simp only [Nat.succ_eq_add_one, ← hfun, Nat.add_zero, pow_zero, mul_one]
    simp [failSeg, List.append_assoc]

/-- Claim C3: with `maxAttempts >= 1` and attempts `1..k-1` failing,
`retry` either returns the first success at attempt `k <= maxAttempts` or,
when `k = maxAttempts` also fails, propagates that last failure verbatim;
the event trace is exactly: for each failing attempt `j < k` the call, the
`onRetry` hook invocation (exactly when a hook was supplied, before the
retry and never after the final attempt) and a sleep of
`initialDelay * backoffMultiplier ^ (j - 1)`, followed by the final call,
so the operation is invoked exactly `k <= maxAttempts` times. -/
theorem retry_spec (opts : RetryOptions) (op : Nat → Except JsError α) (e : Nat → JsError)
    (k : Nat) (hk : 1 ≤ k) (hkmax : k ≤ opts.maxAttempts)
    (hfail : ∀ j, 1 ≤ j → j < k → op j = Except.error (e j)) :
    (∀ a, op k = Except.ok a →
        retry op opts =
          (Except.ok a,
            retryFailTrace e opts.delayMs opts.backoffMultiplier opts.hasOnRetry (k - 1) ++
              [RetryEvent.call k])) ∧
    (k = opts.maxAttempts → op k = Except.error (e k) →
        retry op opts =
          (Except.error (some (e k)),
            retryFailTrace e opts.delayMs opts.backoffMultiplier opts.hasOnRetry (k - 1) ++
              [RetryEvent.call k])) := by
  have hfun : (fun i => failSeg (e (1 + i)) (1 + i)
        (opts.delayMs * opts.backoffMultiplier ^ i) opts.hasOnRetry) =
      (fun i => failSeg (e (i + 1)) (i + 1)
        (opts.delayMs * opts.backoffMultiplier ^ i) opts.hasOnRetry) := by
    funext i
    rw [Nat.add_comm 1 i]
  have hk1 : 1 + (k - 1) = k := by omega
  constructor
  · intro a hok
    have hmain := retryAux_ok op opts.backoffMultiplier opts.hasOnRetry e a (k - 1)
      opts.maxAttempts 1 opts.delayMs none (by omega)
      (fun j hj => hfail (1 + j) (by omega) (by omega))
      (by rw [hk1]; exact hok)
    rw [retry, hmain, hk1]
    unfold retryFailTrace
    rw [hfun]
  · intro hmax hek
    have hexh := retryAux_exhaust op opts.backoffMultiplier opts.hasOnRetry e (k - 1)
      1 opts.delayMs none
      (fun j hj => by
        by_cases hcase : 1 + j < k
        · exact hfail (1 + j) (by omega) hcase
        · have hjk : 1 + j = k := by omega
          rw [hjk]
          exact hek)
    rw [retry]
    have hrw : opts.maxAttempts = (k - 1) + 1 := by omega
    rw [hrw, hexh, hk1]
    unfold retryFailTrace
    rw [hfun]

theorem retry_spec_witness :
    retry (fun j => if j < 3 then Except.error (JsError.mk "boom") else Except.ok (42 : Nat))
        { maxAttempts := 3, delayMs := 1000, backoffMultiplier := 2, hasOnRetry := true } =
      (Except.ok 42,
        retryFailTrace (fun _ => JsError.mk "boom") 1000 2 true 2 ++ [RetryEvent.call 3]) :=
  (retry_spec { maxAttempts := 3, delayMs := 1000, backoffMultiplier := 2, hasOnRetry := true }
      (fun j => if j < 3 then Except.error (JsError.mk "boom") else Except.ok (42 : Nat))
      (fun _ => JsError.mk "boom") 3 (by decide) (by decide)
      (fun j h1 h2 => by interval_cases j <;> rfl)).1 42 (by norm_num)
